import Mathlib

/-!
Verification development for the DOCX classifier (src/classify_docx.py).

The embedding below translates the classification engine of
classify_docx.py into executable Lean definitions:

* text is modelled as `List Char` (one entry per Python character);
* the regular expressions NDC_PATTERN and EDB_NAME_ABBR_PATTERN, which
  are deterministic under greedy matching because every adjacent pair of
  sub-patterns draws from disjoint character classes, are translated
  into explicit greedy matchers with the same leftmost-search semantics
  as Python re.search;
* unicodedata.normalize("NFD", .) together with unicodedata.combining
  and str.lower are modelled by finite character tables covering ASCII
  and the precomposed Latin accented letters this tool works with
  (the French accents); every character outside the tables decomposes
  to itself, is non-combining and is fixed by lowercasing;
* the docx document tree is modelled by the data actually consumed by
  extract_first_page_text: the header/footer text of section one and,
  for each top-level body child, its tag, its run text, whether it
  carries an explicit page break, and its embedded text-box chunks.
-/

namespace ClassifyDocx

/-- Association-list lookup used for the character tables. -/
def tableFind {α : Type} : List (Char × α) → Char → Option α
  | [], _ => none
  | (k, v) :: rest, c => if c = k then some v else tableFind rest c

/-- ASCII lowercasing of a single character, used for the
case-insensitive comparisons of the NDC regex (flag re.IGNORECASE). -/
def toLowerAscii (c : Char) : Char :=
  if 'A' ≤ c ∧ c ≤ 'Z' then Char.ofNat (c.toNat + 32) else c

/-- Characters matched by the regex class backslash-s of Python for str
patterns: ASCII whitespace plus the Unicode whitespace characters. -/
def pySpaceChars : List Char :=
  [Char.ofNat 9, Char.ofNat 10, Char.ofNat 11, Char.ofNat 12, Char.ofNat 13,
   Char.ofNat 28, Char.ofNat 29, Char.ofNat 30, Char.ofNat 31, ' ',
   Char.ofNat 0x85, Char.ofNat 0xA0, Char.ofNat 0x1680,
   Char.ofNat 0x2000, Char.ofNat 0x2001, Char.ofNat 0x2002, Char.ofNat 0x2003,
   Char.ofNat 0x2004, Char.ofNat 0x2005, Char.ofNat 0x2006, Char.ofNat 0x2007,
   Char.ofNat 0x2008, Char.ofNat 0x2009, Char.ofNat 0x200A,
   Char.ofNat 0x2028, Char.ofNat 0x2029, Char.ofNat 0x202F,
   Char.ofNat 0x205F, Char.ofNat 0x3000]

def isPySpace (c : Char) : Bool := pySpaceChars.contains c

/-- The separator class SEP of classify_docx.py line 76: space,
underscore, ASCII hyphen and the typographic hyphen and dash variants
U+2011 through U+2014. -/
def isSepNdc (c : Char) : Bool :=
  c = ' ' || c = '-' || c = '_' ||
  c = Char.ofNat 0x2011 || c = Char.ofNat 0x2012 ||
  c = Char.ofNat 0x2013 || c = Char.ofNat 0x2014

/-- The class [A-Za-z0-9] of the NDC pattern. -/
def isAsciiAlnum (c : Char) : Bool :=
  ('0' ≤ c && c ≤ '9') || ('A' ≤ c && c ≤ 'Z') || ('a' ≤ c && c ≤ 'z')

/-- Continuation class of the final code segment of the NDC pattern. -/
def isCodeCont (c : Char) : Bool := isAsciiAlnum c || c = '-' || c = '_'

/-- Word character in the sense of the regex class backslash-w, for the
ASCII range relevant to normalized filenames. -/
def isWordChar (c : Char) : Bool := isAsciiAlnum c || c = '_'

/-- Length of the maximal prefix on which `p` holds. -/
def countWhile (p : Char → Bool) : List Char → Nat
  | [] => 0
  | c :: cs => if p c then countWhile p cs + 1 else 0

/-- Matches one client token of CLIENTS (line 71) against a prefix of
the input, with the whitespace tolerance of CLIENT_PATTERNS: the letters
of the token joined by greedy backslash-s-star, case-insensitively.
Returns the number of characters consumed. Greedy matching is exact
here because whitespace and letters are disjoint classes. -/
def matchClient : List Char → List Char → Option Nat
  | [], _ => some 0
  | _ :: _, [] => none
  | l :: ls, c :: cs =>
    if toLowerAscii c = toLowerAscii l then
      match ls with
      | [] => some 1
      | _ :: _ =>
        let k := countWhile isPySpace cs
        match matchClient ls (cs.drop k) with
        | some n => some (1 + k + n)
        | none => none
    else none

/-- Matches the year segment of NDC_PATTERN: exactly four alphanumeric
characters (line 82, widened from digits-only). -/
def matchYear (s : List Char) : Option Nat :=
  match s with
  | a :: b :: c :: d :: _ =>
    if isAsciiAlnum a && isAsciiAlnum b && isAsciiAlnum c && isAsciiAlnum d
    then some 4 else none
  | _ => none

/-- Matches the final code segment of NDC_PATTERN: one alphanumeric
character followed greedily by alphanumerics, hyphens and underscores,
with no end anchor. -/
def matchCode (s : List Char) : Option Nat :=
  match s with
  | [] => none
  | c :: cs => if isAsciiAlnum c then some (1 + countWhile isCodeCont cs) else none

/-- Matches the full NDC_PATTERN for one fixed client token at the head
of the input: client, SEP-star, year, SEP-star, code. All adjacent
greedy pieces draw from disjoint character classes, so the greedy
parse coincides with the backtracking parse of Python re. -/
def matchNdcWith (letters : List Char) (s : List Char) : Option Nat :=
  match matchClient letters s with
  | none => none
  | some n1 =>
    let s1 := s.drop n1
    let k1 := countWhile isSepNdc s1
    let s2 := s1.drop k1
    match matchYear s2 with
    | none => none
    | some _ =>
      let s3 := s2.drop 4
      let k2 := countWhile isSepNdc s3
      let s4 := s3.drop k2
      match matchCode s4 with
      | none => none
      | some n2 => some (n1 + k1 + 4 + k2 + n2)

/-- Alternation over the client list CLIENTS = [CAPS, AVEM], in the
order of the Python alternation. -/
def matchNdcAt (s : List Char) : Option Nat :=
  match matchNdcWith "CAPS".data s with
  | some n => some n
  | none => matchNdcWith "AVEM".data s

/-- Leftmost search of NDC_REGEX, as re.search: positions are tried
left to right and the first position admitting a match wins. Returns
the start index and the matched substring (group zero). -/
def ndcSearchAux : Nat → List Char → Option (Nat × List Char)
  | i, [] =>
    (match matchNdcAt [] with
     | some n => some (i, List.take n [])
     | none => none)
  | i, c :: rest =>
    match matchNdcAt (c :: rest) with
    | some n => some (i, (c :: rest).take n)
    | none => ndcSearchAux (i + 1) rest

/-- NDC_REGEX.search on a text. -/
def NDC_search (s : List Char) : Option (Nat × List Char) := ndcSearchAux 0 s

/-- Combining-mark characters appearing in the canonical decompositions
of the accented letters in the table below: grave, acute, circumflex,
diaeresis and cedilla. Models unicodedata.combining being nonzero. -/
def combining_marks : List Char :=
  [Char.ofNat 0x300, Char.ofNat 0x301, Char.ofNat 0x302,
   Char.ofNat 0x308, Char.ofNat 0x327]

def isCombining (c : Char) : Bool := combining_marks.contains c

/-- Canonical (NFD) decomposition table for the precomposed Latin
letters handled by the tool; each maps to its base letter and one
combining mark. Characters absent from the table decompose to
themselves. -/
def nfd_table : List (Char × (Char × Char)) :=
  [('é', ('e', Char.ofNat 0x301)), ('è', ('e', Char.ofNat 0x300)),
   ('ê', ('e', Char.ofNat 0x302)), ('ë', ('e', Char.ofNat 0x308)),
   ('à', ('a', Char.ofNat 0x300)), ('â', ('a', Char.ofNat 0x302)),
   ('î', ('i', Char.ofNat 0x302)), ('ï', ('i', Char.ofNat 0x308)),
   ('ô', ('o', Char.ofNat 0x302)), ('ö', ('o', Char.ofNat 0x308)),
   ('ù', ('u', Char.ofNat 0x300)), ('û', ('u', Char.ofNat 0x302)),
   ('ü', ('u', Char.ofNat 0x308)), ('ç', ('c', Char.ofNat 0x327)),
   ('É', ('E', Char.ofNat 0x301)), ('È', ('E', Char.ofNat 0x300)),
   ('Ê', ('E', Char.ofNat 0x302)), ('Ë', ('E', Char.ofNat 0x308)),
   ('À', ('A', Char.ofNat 0x300)), ('Â', ('A', Char.ofNat 0x302)),
   ('Î', ('I', Char.ofNat 0x302)), ('Ï', ('I', Char.ofNat 0x308)),
   ('Ô', ('O', Char.ofNat 0x302)), ('Ö', ('O', Char.ofNat 0x308)),
   ('Ù', ('U', Char.ofNat 0x300)), ('Û', ('U', Char.ofNat 0x302)),
   ('Ü', ('U', Char.ofNat 0x308)), ('Ç', ('C', Char.ofNat 0x327))]

/-- NFD decomposition of one character. -/
def nfdChar (c : Char) : List Char :=
  match tableFind nfd_table c with
  | some bm => [bm.1, bm.2]
  | none => [c]

/-- Lowercasing table for str.lower: the ASCII uppercase letters and the
accented uppercase letters of the NFD table. Characters absent from the
table are fixed. -/
def lower_table : List (Char × Char) :=
  [('A', 'a'), ('B', 'b'), ('C', 'c'), ('D', 'd'), ('E', 'e'), ('F', 'f'),
   ('G', 'g'), ('H', 'h'), ('I', 'i'), ('J', 'j'), ('K', 'k'), ('L', 'l'),
   ('M', 'm'), ('N', 'n'), ('O', 'o'), ('P', 'p'), ('Q', 'q'), ('R', 'r'),
   ('S', 's'), ('T', 't'), ('U', 'u'), ('V', 'v'), ('W', 'w'), ('X', 'x'),
   ('Y', 'y'), ('Z', 'z'),
   ('É', 'é'), ('È', 'è'), ('Ê', 'ê'), ('Ë', 'ë'), ('À', 'à'), ('Â', 'â'),
   ('Î', 'î'), ('Ï', 'ï'), ('Ô', 'ô'), ('Ö', 'ö'), ('Ù', 'ù'), ('Û', 'û'),
   ('Ü', 'ü'), ('Ç', 'ç')]

def lowerChar (c : Char) : Char := (tableFind lower_table c).getD c

/-- str.lower on a text. -/
def lower_str (s : List Char) : List Char := s.map lowerChar

/-- strip_accents (classify_docx.py lines 86 through 89): NFD
decomposition followed by removal of the combining marks. -/
def strip_accents (s : List Char) : List Char :=
  (s.flatMap nfdChar).filter (fun c => !isCombining c)

/-- Tests whether the first list is a literal prefix of the second. -/
def startsWith : List Char → List Char → Bool
  | [], _ => true
  | _ :: _, [] => false
  | c :: cs, x :: xs => x = c && startsWith cs xs

/-- Substring containment, the semantics of the Python in operator on
strings. -/
def containsSub (pat : List Char) : List Char → Bool
  | [] => startsWith pat []
  | c :: rest => startsWith pat (c :: rest) || containsSub pat rest

/-- The normalization strip_accents(s).lower() used before every phrase
comparison (lines 218, 226 and 237). -/
def normalize (s : List Char) : List Char := lower_str (strip_accents s)

/-- EDB_TOKENS (lines 59 through 63). -/
def EDB_TOKENS : List (List Char) :=
  ["expression de besoin".data, "expression de besoins".data,
   "expressions de besoins".data]

/-- The apostrophe character, used inside reason strings. -/
def apos : Char := Char.ofNat 39

/-- Drops an exact (case-sensitive) literal from the head of the input,
returning the remainder. -/
def dropLit : List Char → List Char → Option (List Char)
  | [], s => some s
  | _ :: _, [] => none
  | c :: cs, x :: xs => if x = c then dropLit cs xs else none

/-- The class matched by the bracket expression of the abbreviation
pattern: non-word characters together with the underscore. -/
def isNonWordOrUnderscore (c : Char) : Bool := !isWordChar c || c = '_'

/-- Tail of the abbreviation pattern after its separators: the literal
besoin, an optional plural s, then a word boundary. The optional s is
tried greedily first, exactly as Python re does. -/
def abbrevTail (t : List Char) : Bool :=
  match dropLit "besoin".data t with
  | none => false
  | some u =>
    match u with
    | [] => true
    | c :: v =>
      if c = 's' then
        match v with
        | [] => true
        | d :: _ => !isWordChar d
      else !isWordChar c

/-- Matches EDB_NAME_ABBR_PATTERN (line 66) at the head of the input,
the leading word boundary being checked by the caller: expr, an
optional ession, separators, an optional de plus separators, then the
besoin tail. Each greedy optional piece is deterministic because its
first character cannot start the alternative continuation. -/
def matchAbbrevCore (s : List Char) : Bool :=
  match dropLit "expr".data s with
  | none => false
  | some s1 =>
    let s2 := match dropLit "ession".data s1 with
      | some r => r
      | none => s1
    let s3 := s2.dropWhile isNonWordOrUnderscore
    let deBranch := match dropLit "de".data s3 with
      | some s4 => abbrevTail (s4.dropWhile isNonWordOrUnderscore)
      | none => false
    deBranch || abbrevTail s3

/-- Search of EDB_NAME_ABBR_REGEX: tries every position whose preceding
character is not a word character (the leading word-boundary condition,
since the pattern starts with a word character). -/
def abbrevSearchAux : Bool → List Char → Bool
  | prevWord, [] => !prevWord && matchAbbrevCore []
  | prevWord, c :: rest =>
    (!prevWord && matchAbbrevCore (c :: rest)) ||
    abbrevSearchAux (isWordChar c) rest

def abbrevSearch (s : List Char) : Bool := abbrevSearchAux false s

/-- detect_ndc_in_first_page (lines 205 through 209). -/
def detect_ndc_in_first_page (text : List Char) : Bool × List Char :=
  match NDC_search text with
  | some pm => (true, "pattern:".data ++ pm.2 ++ " source:first_page".data)
  | none => (false, [])

/-- detect_ndc_in_filename (lines 211 through 215). -/
def detect_ndc_in_filename (filename : List Char) : Bool × List Char :=
  match NDC_search filename with
  | some pm => (true, "pattern:".data ++ pm.2 ++ " source:filename".data)
  | none => (false, [])

/-- detect_edb_in_first_page (lines 217 through 222): first EDB token
contained in the normalized text, in list order. -/
def detect_edb_in_first_page (text : List Char) : Bool × List Char :=
  match EDB_TOKENS.find? (fun tok => containsSub tok (normalize text)) with
  | some tok => (true, "contains_first_page:".data ++ [apos] ++ tok ++ [apos])
  | none => (false, [])

/-- detect_edb_phrases_in_filename (lines 224 through 230). -/
def detect_edb_phrases_in_filename (filename : List Char) : Bool × List Char :=
  match EDB_TOKENS.find? (fun tok => containsSub tok (normalize filename)) with
  | some tok => (true, "filename_contains_phrase:".data ++ [apos] ++ tok ++ [apos])
  | none => (false, [])

/-- detect_edb_abbrev_in_filename (lines 232 through 240). -/
def detect_edb_abbrev_in_filename (filename : List Char) : Bool × List Char :=
  if abbrevSearch (normalize filename) then
    (true, "filename_contains_abbrev:".data ++ [apos] ++ "expr...besoin(s)".data ++ [apos])
  else (false, [])

/-- classify (lines 243 through 288): the seven-rule priority ladder.
Rule 4 of the source is one outer test on the filename fragment with an
inner split on readability; it is rendered here as two successive
conditions with the same fall-through behaviour: when the fragment is
present, the document readable and a first-page code present, neither
condition fires and control reaches rule 5. -/
def classify (first_page_text filename : List Char) (content_read_ok : Bool) :
    List Char × List Char :=
  let filename_lower := lower_str filename
  if content_read_ok && (detect_ndc_in_first_page first_page_text).1 then
    ("NDC".data, (detect_ndc_in_first_page first_page_text).2)
  else if containsSub "edb".data filename_lower then
    ("EDB".data, "filename_contains:edb".data)
  else if (detect_edb_phrases_in_filename filename).1 then
    ("EDB".data, (detect_edb_phrases_in_filename filename).2)
  else if (detect_edb_abbrev_in_filename filename).1 then
    ("EDB".data, (detect_edb_abbrev_in_filename filename).2)
  else if containsSub "eb".data filename_lower && content_read_ok &&
          !(detect_ndc_in_first_page first_page_text).1 then
    ("EDB".data, "filename_contains:eb AND no_ndc_on_first_page".data)
  else if containsSub "eb".data filename_lower && !content_read_ok then
    ("EDB".data, "filename_contains:eb AND content_unreadable".data)
  else if (detect_ndc_in_filename filename).1 then
    ("NDC".data, (detect_ndc_in_filename filename).2)
  else if content_read_ok && (detect_edb_in_first_page first_page_text).1 then
    ("EDB".data, (detect_edb_in_first_page first_page_text).2)
  else
    ("AUTRES".data, [])

/-- Per-document classification as assembled by main (lines 332 through
357): when extraction failed, main sets the fallback reason string
content_unreadable: followed by the exception type name, calls classify
with content_read_ok false, and appends the fallback to the reason
produced by classify, or uses it alone when classify produced none. -/
def classify_document (first_page filename : List Char) (content_read_ok : Bool)
    (exc_name : List Char) : List Char × List Char :=
  let unreadable_reason :=
    if content_read_ok then [] else "content_unreadable:".data ++ exc_name
  let r := classify first_page filename content_read_ok
  let rsn :=
    if !content_read_ok && !r.2.isEmpty then
      r.2 ++ " | ".data ++ unreadable_reason
    else if !content_read_ok && r.2.isEmpty then
      (if !unreadable_reason.isEmpty then unreadable_reason
       else "content_unreadable".data)
    else r.2
  (r.1, rsn)

/-- One top-level child of the document body, carrying exactly the data
extract_first_page_text reads from it: the local tag name, the
concatenated run text, whether some br element of type page occurs in
it, and the run text of each embedded text-box content element. -/
structure BodyChild where
  tag : List Char
  runs_text : List Char
  page_break : Bool
  txbx_chunks : List (List Char)

/-- A document as consumed by extract_first_page_text: the
header/footer text of the first section and the body children. -/
structure DocxModel where
  header_footer : List Char
  body : List BodyChild

/-- The join by a newline performed by the str.join calls. -/
def joinNL : List (List Char) → List Char
  | [] => []
  | [p] => p
  | p :: rest => p ++ '\n' :: joinNL rest

/-- The running length counter of extract_first_page_text: the sum of
len(p) + 1 over the accumulated parts (line 140). -/
def part_len (parts : List (List Char)) : Nat :=
  (parts.map (fun p => p.length + 1)).sum

/-- Appends one fragment to the accumulator state when it is nonempty,
updating the length counter, as the repeated append pattern of the
source does. -/
def append_part (st : List (List Char) × Nat) (t : List Char) :
    List (List Char) × Nat :=
  if t = [] then st else (st.1 ++ [t], st.2 + t.length + 1)

/-- The text-box text of a child: newline join of its nonempty chunks
(lines 163 through 170). -/
def txbx_text (chunks : List (List Char)) : List Char :=
  joinNL (chunks.filter (fun c => !(c = [])))

/-- The text-box block of the loop body, executed for every child. -/
def append_txbx (st : List (List Char) × Nat) (ch : BodyChild) :
    List (List Char) × Nat :=
  if ch.txbx_chunks = [] then st else append_part st (txbx_text ch.txbx_chunks)

/-- The state of the accumulator after one full loop iteration that
did not return early: a paragraph or table child appends its run text
first, then every child appends its text-box text. -/
def step_state (st : List (List Char) × Nat) (ch : BodyChild) :
    List (List Char) × Nat :=
  if ch.tag = "p".data ∨ ch.tag = "tbl".data then
    append_txbx (append_part st ch.runs_text) ch
  else append_txbx st ch

/-- The body loop of extract_first_page_text (lines 143 through 175).
A paragraph carrying an explicit page break returns the join of the
accumulated parts immediately and without truncation, after appending
its run text but before the text-box block; every other exit truncates
the join to the character limit. Returns the final text together with
the final value of the length counter. -/
def extract_loop (limit : Nat) : List BodyChild → List (List Char) × Nat →
    List Char × Nat
  | [], st => ((joinNL st.1).take limit, st.2)
  | ch :: rest, st =>
    if ch.tag = "p".data then
      if ch.page_break then
        (joinNL (append_part st ch.runs_text).1, (append_part st ch.runs_text).2)
      else if (step_state st ch).2 ≥ limit then
        ((joinNL (step_state st ch).1).take limit, (step_state st ch).2)
      else extract_loop limit rest (step_state st ch)
    else if (step_state st ch).2 ≥ limit then
      ((joinNL (step_state st ch).1).take limit, (step_state st ch).2)
    else extract_loop limit rest (step_state st ch)

/-- The initial parts accumulator: the header/footer text when it is
nonempty (lines 136 through 139). -/
def extract_parts0 (doc : DocxModel) : List (List Char) :=
  if doc.header_footer = [] then [] else [doc.header_footer]

/-- extract_first_page_text (lines 126 through 175). -/
def extract_first_page_text (doc : DocxModel) (char_limit : Nat) : List Char :=
  (extract_loop char_limit doc.body
    (extract_parts0 doc, part_len (extract_parts0 doc))).1

/-- The value of the length counter when the body loop stops. -/
def extract_stop_total (doc : DocxModel) (char_limit : Nat) : Nat :=
  (extract_loop char_limit doc.body
    (extract_parts0 doc, part_len (extract_parts0 doc))).2

/-- A character is stable when it is fixed by NFD decomposition, is not
a combining mark and is fixed by lowercasing. -/
def stableChar (c : Char) : Bool :=
  (tableFind nfd_table c).isNone && !isCombining c &&
  (tableFind lower_table c).isNone

/-- No paragraph child of the body signals an explicit page break. -/
def no_page_break (body : List BodyChild) : Bool :=
  body.all (fun ch => !(ch.tag = "p".data && ch.page_break))

/-- A document whose single paragraph carries six characters of text and
an explicit page break. -/
def doc_break_example : DocxModel :=
  ⟨[], [⟨"p".data, "aaaaaa".data, true, []⟩]⟩

/-- A document with two paragraphs of nine and six characters and no
page break: its full body text is sixteen characters long. -/
def doc_shortfall_example : DocxModel :=
  ⟨[], [⟨"p".data, "123456789".data, false, []⟩,
        ⟨"p".data, "abcdef".data, false, []⟩]⟩

/-- A document with header text and one long paragraph, no page break. -/
def doc_overflow_example : DocxModel :=
  ⟨"hd".data, [⟨"p".data, "abcdefgh".data, false, []⟩]⟩

/-- A short document with one paragraph and no page break. -/
def doc_nobreak_example : DocxModel :=
  ⟨"h".data, [⟨"p".data, "xyz".data, false, []⟩]⟩

/-! Helper lemmas. -/

theorem ne_nil_left {a : List Char} (b : List Char) (ha : a ≠ []) :
    a ++ b ≠ [] := by
  cases a with
  | nil => exact absurd rfl ha
  | cons x xs => simp

theorem detect_ndc_fp_cases (t : List Char) :
    (detect_ndc_in_first_page t = (false, []) ∧ NDC_search t = none) ∨
    ((detect_ndc_in_first_page t).1 = true ∧
     (detect_ndc_in_first_page t).2 ≠ []) := by
  unfold detect_ndc_in_first_page
  cases hn : NDC_search t with
  | none => exact Or.inl ⟨rfl, rfl⟩
  | some pm =>
    exact Or.inr ⟨rfl, ne_nil_left _ (ne_nil_left _ (by decide))⟩

theorem detect_ndc_fn_cases (t : List Char) :
    (detect_ndc_in_filename t = (false, []) ∧ NDC_search t = none) ∨
    ((detect_ndc_in_filename t).1 = true ∧
     (detect_ndc_in_filename t).2 ≠ []) := by
  unfold detect_ndc_in_filename
  cases hn : NDC_search t with
  | none => exact Or.inl ⟨rfl, rfl⟩
  | some pm =>
    exact Or.inr ⟨rfl, ne_nil_left _ (ne_nil_left _ (by decide))⟩

theorem detect_edb_fp_cases (t : List Char) :
    detect_edb_in_first_page t = (false, []) ∨
    ((detect_edb_in_first_page t).1 = true ∧
     (detect_edb_in_first_page t).2 ≠ []) := by
  unfold detect_edb_in_first_page
  cases hf : EDB_TOKENS.find? (fun tok => containsSub tok (normalize t)) with
  | none => exact Or.inl rfl
  | some tok =>
    exact Or.inr ⟨rfl, ne_nil_left _ (ne_nil_left _ (ne_nil_left _ (by decide)))⟩

theorem detect_edb_phrase_cases (t : List Char) :
    detect_edb_phrases_in_filename t = (false, []) ∨
    ((detect_edb_phrases_in_filename t).1 = true ∧
     (detect_edb_phrases_in_filename t).2 ≠ []) := by
  unfold detect_edb_phrases_in_filename
  cases hf : EDB_TOKENS.find? (fun tok => containsSub tok (normalize t)) with
  | none => exact Or.inl rfl
  | some tok =>
    exact Or.inr ⟨rfl, ne_nil_left _ (ne_nil_left _ (ne_nil_left _ (by decide)))⟩

theorem detect_edb_abbrev_cases (t : List Char) :
    detect_edb_abbrev_in_filename t = (false, []) ∨
    ((detect_edb_abbrev_in_filename t).1 = true ∧
     (detect_edb_abbrev_in_filename t).2 ≠ []) := by
  unfold detect_edb_abbrev_in_filename
  by_cases h : abbrevSearch (normalize t)
  · rw [if_pos h]
    exact Or.inr ⟨rfl, ne_nil_left _ (ne_nil_left _ (ne_nil_left _ (by decide)))⟩
  · rw [if_neg h]
    exact Or.inl rfl

theorem tableFind_mem {α : Type} (t : List (Char × α)) (c : Char) (v : α)
    (h : tableFind t c = some v) : (c, v) ∈ t := by
  induction t with
  | nil => exact absurd h (by simp [tableFind])
  | cons p rest ih =>
    obtain ⟨k, w⟩ := p
    by_cases hck : c = k
    · rw [tableFind, if_pos hck] at h
      injection h with h
      subst h; subst hck
      exact List.mem_cons_self _ _
    · rw [tableFind, if_neg hck] at h
      exact List.mem_cons_of_mem _ (ih h)

theorem stableChar_spec (c : Char) (h : stableChar c = true) :
    nfdChar c = [c] ∧ isCombining c = false ∧ lowerChar c = c := by
  unfold stableChar at h
  simp only [Bool.and_eq_true, Option.isNone_iff_eq_none,
    Bool.not_eq_true'] at h
  obtain ⟨⟨h1, h2⟩, h3⟩ := h
  refine ⟨?_, h2, ?_⟩
  · unfold nfdChar; rw [h1]
  · unfold lowerChar; rw [h3]; rfl

theorem nfd_entries_ok : nfd_table.all
    (fun p => isCombining p.2.2 && stableChar (lowerChar p.2.1)) = true := by
  decide

theorem lower_entries_ok : lower_table.all
    (fun p => !(tableFind nfd_table p.1).isNone || stableChar p.2) = true := by
  decide

theorem lowerChar_stable (e d : Char) (hd : d ∈ nfdChar e)
    (hc : isCombining d = false) :
    nfdChar (lowerChar d) = [lowerChar d] ∧
    isCombining (lowerChar d) = false ∧
    lowerChar (lowerChar d) = lowerChar d := by
  unfold nfdChar at hd
  cases hn : tableFind nfd_table e with
  | none =>
    rw [hn] at hd
    simp only [List.mem_singleton] at hd
    subst hd
    cases hl : tableFind lower_table d with
    | none =>
      have hld : lowerChar d = d := by unfold lowerChar; rw [hl]; rfl
      rw [hld]
      exact ⟨by unfold nfdChar; rw [hn], hc, hld⟩
    | some l =>
      have hmem := tableFind_mem _ _ _ hl
      have hall := List.all_eq_true.mp lower_entries_ok (d, l) hmem
      simp only at hall
      rw [hn] at hall
      simp only [Option.isNone_none, Bool.not_true, Bool.false_or] at hall
      have hld : lowerChar d = l := by unfold lowerChar; rw [hl]; rfl
      rw [hld]
      exact stableChar_spec l hall
  | some bm =>
    rw [hn] at hd
    have hmem := tableFind_mem _ _ _ hn
    have hall := List.all_eq_true.mp nfd_entries_ok (e, bm) hmem
    simp only [Bool.and_eq_true] at hall
    obtain ⟨hcomb, hstab⟩ := hall
    simp only [List.mem_cons, List.mem_singleton, List.not_mem_nil,
      or_false] at hd
    rcases hd with rfl | rfl
    · exact stableChar_spec _ hstab
    · rw [hc] at hcomb
      exact Bool.noConfusion hcomb

theorem mem_normalize_stable (s : List Char) (c : Char)
    (hc : c ∈ normalize s) :
    nfdChar c = [c] ∧ isCombining c = false ∧ lowerChar c = c := by
  unfold normalize lower_str at hc
  rcases List.mem_map.mp hc with ⟨d, hd, rfl⟩
  unfold strip_accents at hd
  have hd' := List.mem_filter.mp hd
  rcases List.mem_flatMap.mp hd'.1 with ⟨e, _, hde⟩
  have hcomb : isCombining d = false := by
    have h2 := hd'.2
    simp only [Bool.not_eq_true'] at h2
    exact h2
  exact lowerChar_stable e d hde hcomb

theorem normalize_fixed (l : List Char)
    (h : ∀ c ∈ l, nfdChar c = [c] ∧ isCombining c = false ∧ lowerChar c = c) :
    normalize l = l := by
  induction l with
  | nil => rfl
  | cons c t ih =>
    obtain ⟨h1, h2, h3⟩ := h c (List.mem_cons_self c t)
    have ht := ih (fun x hx => h x (List.mem_cons_of_mem c hx))
    unfold normalize lower_str strip_accents at ht ⊢
    rw [List.flatMap_cons, h1]
    simp only [List.singleton_append, List.filter_cons, h2, Bool.not_false,
      if_true, List.map_cons, h3]
    rw [ht]

/-! Claim theorems. -/

/-- C1: for every first-page text in which the structured-code matcher
finds a code, every filename, and a readable document, classify returns
category NDC: rule 1 strictly precedes every filename-based EDB rule. -/
theorem first_page_code_beats_filename_edb (fp fn : List Char)
    (h : (detect_ndc_in_first_page fp).1 = true) :
    (classify fp fn true).1 = "NDC".data := by
  simp [classify, h]

/-- Witness for C1: the first-page text CAPS2020-132 carries a valid
code, and with the EDB-signalling filename projet_eb_2022_edb.ext the
result is still NDC. -/
theorem first_page_code_beats_filename_edb_witness :
    (detect_ndc_in_first_page "CAPS2020-132".data).1 = true ∧
    (classify "CAPS2020-132".data "projet_eb_2022_edb.ext".data true).1 =
      "NDC".data :=
  ⟨by decide,
   first_page_code_beats_filename_edb "CAPS2020-132".data
     "projet_eb_2022_edb.ext".data (by decide)⟩

/-- C2 counterexample: the claim that a reported NDC match never begins
immediately after a word character is false: on XCAPS2020-132 the
search reports a match at index 1, immediately after the word
character X. -/
theorem ndc_match_after_word_char_counterexample :
    ¬ (∀ (s : List Char) (i : Nat) (m : List Char),
        NDC_search s = some (i, m) → ∀ c, s[i - 1]? = some c → 0 < i →
        isWordChar c = false) := by
  intro h
  have hx := h "XCAPS2020-132".data 1 "CAPS2020-132".data (by decide) 'X'
    (by decide) (by decide)
  exact absurd hx (by decide)

/-- C2 amended: NDC_PATTERN carries no leading word-boundary
constraint, so a match may begin immediately after a word character:
on XCAPS2020-132 the search reports the match CAPS2020-132 at index 1,
directly after the word character X. -/
theorem ndc_match_may_follow_word_char :
    NDC_search "XCAPS2020-132".data = some (1, "CAPS2020-132".data) ∧
    isWordChar 'X' = true := by
  decide

/-- C4: the normalizer, NFD accent stripping followed by lowercasing,
is idempotent on every string, and it identifies the uppercase accented
spelling EXPRESSION-with-acute-E with the plain lowercase spelling. -/
theorem normalize_idempotent_and_accent_case_independent :
    (∀ s : List Char, normalize (normalize s) = normalize s) ∧
    normalize "ÉXPRESSION".data = normalize "expression".data := by
  refine ⟨fun s => normalize_fixed _ (fun c hc => mem_normalize_stable s c hc), ?_⟩
  decide

/-- C6: the structured-code matcher is separator-tolerant and
end-unanchored: the four separator variants all match from index 0 with
the whole input as the reported match, and the trailing _PF suffix is
part of the reported match. -/
theorem ndc_separator_tolerant_and_end_unanchored :
    NDC_search "CAPS2020-132".data = some (0, "CAPS2020-132".data) ∧
    NDC_search "CAPS_2020_132".data = some (0, "CAPS_2020_132".data) ∧
    NDC_search "CAPS-2020-132".data = some (0, "CAPS-2020-132".data) ∧
    NDC_search "CAP S 2020 132".data = some (0, "CAP S 2020 132".data) ∧
    NDC_search "CAPS_2020_132_PF".data = some (0, "CAPS_2020_132_PF".data) := by
  decide

/-- C7: for every filename containing edb case-insensitively, whenever
the document is unreadable or the first page carries no code, classify
returns EDB through rule 2, before the NDC-in-filename rule 5 can ever
look at the filename. -/
theorem filename_edb_marker_yields_edb (fp fn : List Char) (ok : Bool)
    (h1 : containsSub "edb".data (lower_str fn) = true)
    (h2 : ok = false ∨ (detect_ndc_in_first_page fp).1 = false) :
    classify fp fn ok = ("EDB".data, "filename_contains:edb".data) := by
  rcases h2 with h2 | h2
  · subst h2; simp [classify, h1]
  · simp [classify, h1, h2]

/-- Witness for C7: the filename Note_EDB_CAPS_2021-045.ext contains
both the edb marker and a valid structured code, the first page has no
code, and the result is EDB by rule 2. -/
theorem filename_edb_marker_yields_edb_witness :
    containsSub "edb".data (lower_str "Note_EDB_CAPS_2021-045.ext".data) = true ∧
    (detect_ndc_in_first_page "bonjour".data).1 = false ∧
    classify "bonjour".data "Note_EDB_CAPS_2021-045.ext".data true =
      ("EDB".data, "filename_contains:edb".data) :=
  ⟨by decide, by decide,
   filename_edb_marker_yields_edb "bonjour".data
     "Note_EDB_CAPS_2021-045.ext".data true (by decide)
     (Or.inr (by decide))⟩

/-- C9: for a readable document, when control reaches rule 4, the
re-check of the first page necessarily agrees with rule 1 that no code
is present, so with the eb fragment in the filename the result is
always EDB: the fall-through branch in which the re-check finds a code
is unreachable. -/
theorem rule4_recheck_no_match_for_readable (fp fn : List Char)
    (h1 : (detect_ndc_in_first_page fp).1 = false)
    (h2 : containsSub "edb".data (lower_str fn) = false)
    (h3 : (detect_edb_phrases_in_filename fn).1 = false)
    (h4 : (detect_edb_abbrev_in_filename fn).1 = false)
    (h5 : containsSub "eb".data (lower_str fn) = true) :
    classify fp fn true =
      ("EDB".data, "filename_contains:eb AND no_ndc_on_first_page".data) := by
  simp [classify, h1, h2, h3, h4, h5]

/-- Witness for C9: the filename projet_eb_2022.ext with a code-free
readable first page passes rules 1 through 3 and yields EDB at rule 4. -/
theorem rule4_recheck_no_match_for_readable_witness :
    (detect_ndc_in_first_page "bonjour a tous".data).1 = false ∧
    containsSub "eb".data (lower_str "projet_eb_2022.ext".data) = true ∧
    classify "bonjour a tous".data "projet_eb_2022.ext".data true =
      ("EDB".data, "filename_contains:eb AND no_ndc_on_first_page".data) :=
  ⟨by decide, by decide,
   rule4_recheck_no_match_for_readable "bonjour a tous".data
     "projet_eb_2022.ext".data (by decide) (by decide) (by decide)
     (by decide) (by decide)⟩

theorem classify_unreadable_eb (fp fn : List Char)
    (h : containsSub "eb".data (lower_str fn) = true) :
    (classify fp fn false).1 = "EDB".data ∧ (classify fp fn false).2 ≠ [] := by
  cases h2 : containsSub "edb".data (lower_str fn) with
  | true =>
    have hc : classify fp fn false =
        ("EDB".data, "filename_contains:edb".data) := by
      simp [classify, h2]
    rw [hc]
    exact ⟨rfl, by decide⟩
  | false =>
    cases h3 : (detect_edb_phrases_in_filename fn).1 with
    | true =>
      have hc : classify fp fn false =
          ("EDB".data, (detect_edb_phrases_in_filename fn).2) := by
        simp [classify, h2, h3]
      rw [hc]
      rcases detect_edb_phrase_cases fn with he | ⟨_, hne⟩
      · rw [he] at h3; exact absurd h3 (by decide)
      · exact ⟨rfl, hne⟩
    | false =>
      cases h4 : (detect_edb_abbrev_in_filename fn).1 with
      | true =>
        have hc : classify fp fn false =
            ("EDB".data, (detect_edb_abbrev_in_filename fn).2) := by
          simp [classify, h2, h3, h4]
        rw [hc]
        rcases detect_edb_abbrev_cases fn with he | ⟨_, hne⟩
        · rw [he] at h4; exact absurd h4 (by decide)
        · exact ⟨rfl, hne⟩
      | false =>
        have hc : classify fp fn false =
            ("EDB".data, "filename_contains:eb AND content_unreadable".data) := by
          simp [classify, h2, h3, h4, h]
        rw [hc]
        exact ⟨rfl, by decide⟩

/-- C8: for every filename containing the two-letter fragment eb and an
unreadable document, the per-document result assembled by main is
category EDB with a reason string that mentions the unreadability,
regardless of any other filename content. -/
theorem unreadable_eb_fragment_yields_edb (fp fn exc : List Char)
    (h : containsSub "eb".data (lower_str fn) = true) :
    (classify_document fp fn false exc).1 = "EDB".data ∧
    ∃ u v, (classify_document fp fn false exc).2 =
      u ++ ("content_unreadable".data ++ v) := by
  obtain ⟨hcat, hne⟩ := classify_unreadable_eb fp fn h
  have hemp : (classify fp fn false).2.isEmpty = false := by
    cases hr : (classify fp fn false).2 with
    | nil => exact absurd hr hne
    | cons a l => rfl
  constructor
  · exact hcat
  · refine ⟨(classify fp fn false).2 ++ " | ".data, ":".data ++ exc, ?_⟩
    have hsplit : "content_unreadable:".data =
        "content_unreadable".data ++ ":".data := by decide
    simp [classify_document, hemp, hsplit, List.append_assoc]

/-- Witness for C8: the unreadable document with filename
projet_eb_CAPS_2021-045.ext, which also contains a valid structured
code, is classified EDB with a reason mentioning the unreadability. -/
theorem unreadable_eb_fragment_yields_edb_witness :
    containsSub "eb".data (lower_str "projet_eb_CAPS_2021-045.ext".data) = true ∧
    ((classify_document [] "projet_eb_CAPS_2021-045.ext".data false
        "PackageNotFoundError".data).1 = "EDB".data ∧
     ∃ u v, (classify_document [] "projet_eb_CAPS_2021-045.ext".data false
        "PackageNotFoundError".data).2 =
        u ++ ("content_unreadable".data ++ v)) :=
  ⟨by decide,
   unreadable_eb_fragment_yields_edb [] "projet_eb_CAPS_2021-045.ext".data
     "PackageNotFoundError".data (by decide)⟩

/-! Extraction lemmas. -/

theorem part_len_append (a b : List (List Char)) :
    part_len (a ++ b) = part_len a + part_len b := by
  unfold part_len
  rw [List.map_append, List.sum_append]

theorem append_part_spec (st : List (List Char) × Nat) (t : List Char) :
    ∃ δ, append_part st t = (st.1 ++ δ, st.2 + part_len δ) := by
  unfold append_part
  by_cases h : t = []
  · exact ⟨[], by simp [h, part_len]⟩
  · refine ⟨[t], ?_⟩
    rw [if_neg h]
    simp [part_len]
    omega

theorem append_txbx_spec (st : List (List Char) × Nat) (ch : BodyChild) :
    ∃ δ, append_txbx st ch = (st.1 ++ δ, st.2 + part_len δ) := by
  unfold append_txbx
  by_cases h : ch.txbx_chunks = []
  · exact ⟨[], by simp [h, part_len]⟩
  · rw [if_neg h]
    exact append_part_spec st _

theorem append_part_txbx_spec (st : List (List Char) × Nat) (ch : BodyChild) :
    ∃ δ, append_txbx (append_part st ch.runs_text) ch =
      (st.1 ++ δ, st.2 + part_len δ) := by
  obtain ⟨δa, ha⟩ := append_part_spec st ch.runs_text
  obtain ⟨δb, hb⟩ := append_txbx_spec (append_part st ch.runs_text) ch
  refine ⟨δa ++ δb, ?_⟩
  rw [hb, ha]
  simp [List.append_assoc, part_len_append, Nat.add_assoc]

theorem step_state_spec (st : List (List Char) × Nat) (ch : BodyChild) :
    ∃ δ, step_state st ch = (st.1 ++ δ, st.2 + part_len δ) := by
  unfold step_state
  by_cases h : (ch.tag = "p".data ∨ ch.tag = "tbl".data)
  · rw [if_pos h]
    exact append_part_txbx_spec st ch
  · rw [if_neg h]
    exact append_txbx_spec st ch

theorem extract_loop_tail_spec (limit : Nat) (rest : List BodyChild)
    (ih : ∀ st : List (List Char) × Nat, ∃ δ,
      extract_loop limit rest st =
        ((joinNL (st.1 ++ δ)).take limit, st.2 + part_len δ))
    (st : List (List Char) × Nat) (ch : BodyChild) :
    ∃ δ, (if (step_state st ch).2 ≥ limit then
            ((joinNL (step_state st ch).1).take limit, (step_state st ch).2)
          else extract_loop limit rest (step_state st ch)) =
      ((joinNL (st.1 ++ δ)).take limit, st.2 + part_len δ) := by
  obtain ⟨δ2, h2⟩ := step_state_spec st ch
  by_cases hlim : (step_state st ch).2 ≥ limit
  · rw [if_pos hlim, h2]
    exact ⟨δ2, rfl⟩
  · rw [if_neg hlim]
    obtain ⟨δ3, h3⟩ := ih (step_state st ch)
    rw [h3, h2]
    exact ⟨δ2 ++ δ3, by simp [List.append_assoc, part_len_append, Nat.add_assoc]⟩

theorem extract_loop_spec (limit : Nat) :
    ∀ children : List BodyChild,
      (∀ ch ∈ children, ch.tag = "p".data → ch.page_break = false) →
      ∀ st : List (List Char) × Nat, ∃ δ,
        extract_loop limit children st =
          ((joinNL (st.1 ++ δ)).take limit, st.2 + part_len δ) := by
  intro children
  induction children with
  | nil =>
    intro _ st
    exact ⟨[], by simp [extract_loop, part_len]⟩
  | cons ch rest ih =>
    intro hnb st
    have ihr := ih (fun c hc => hnb c (List.mem_cons_of_mem _ hc))
    by_cases hp : ch.tag = "p".data
    · have hpb : ch.page_break = false := hnb ch (List.mem_cons_self _ _) hp
      simp only [extract_loop]
      rw [if_pos hp, if_neg (by simp [hpb])]
      exact extract_loop_tail_spec limit rest ihr st ch
    · simp only [extract_loop]
      rw [if_neg hp]
      exact extract_loop_tail_spec limit rest ihr st ch

theorem joinNL_length (parts : List (List Char)) (h : parts ≠ []) :
    (joinNL parts).length + 1 = part_len parts := by
  induction parts with
  | nil => exact absurd rfl h
  | cons p rest ih =>
    cases rest with
    | nil => simp [joinNL, part_len]
    | cons q r =>
      have hr := ih (by simp)
      simp only [joinNL, part_len, List.map_cons, List.sum_cons,
        List.length_append, List.length_cons] at hr ⊢
      omega

theorem joinNL_cons_head_eq (p : List Char) (rest : List (List Char)) :
    ∃ t, joinNL (p :: rest) = p ++ t := by
  cases rest with
  | nil => exact ⟨[], by simp [joinNL]⟩
  | cons q r => exact ⟨'\n' :: joinNL (q :: r), rfl⟩

theorem no_page_break_spec (body : List BodyChild)
    (h : no_page_break body = true) :
    ∀ ch ∈ body, ch.tag = "p".data → ch.page_break = false := by
  intro ch hch hp
  have := List.all_eq_true.mp h ch hch
  simp only [hp, decide_True, Bool.true_and, Bool.not_eq_true',
    Bool.not_eq_false] at this
  cases hpb : ch.page_break
  · rfl
  · rw [hpb] at this
    simp at this

/-- C3 counterexample: the claim that extract_first_page_text always
returns at most char_limit characters fails on the page-break early
return: on a document whose first paragraph has six characters of text
and an explicit page break, with char_limit three, the returned text
has six characters. -/
theorem extract_page_break_exceeds_limit_counterexample :
    (extract_first_page_text doc_break_example 3).length = 6 ∧
    ¬ ((extract_first_page_text doc_break_example 3).length ≤ 3) := by
  decide

/-- C3 amended: when no paragraph child carries an explicit page break,
extract_first_page_text returns at most char_limit characters; the
page-break early return is exempt from this bound, since it returns the
accumulated text untruncated. -/
theorem extract_length_le_limit_without_page_break (doc : DocxModel)
    (limit : Nat) (hnb : no_page_break doc.body = true) :
    (extract_first_page_text doc limit).length ≤ limit := by
  obtain ⟨δ, h⟩ := extract_loop_spec limit doc.body (no_page_break_spec _ hnb)
    (extract_parts0 doc, part_len (extract_parts0 doc))
  unfold extract_first_page_text
  rw [h]
  simp [List.length_take]

/-- Witness for C3: a break-free document evaluated at char_limit 2. -/
theorem extract_length_le_limit_without_page_break_witness :
    no_page_break doc_nobreak_example.body = true ∧
    (extract_first_page_text doc_nobreak_example 2).length ≤ 2 :=
  ⟨by decide,
   extract_length_le_limit_without_page_break doc_nobreak_example 2 (by decide)⟩

/-- C5 counterexample: a break-free document whose full body text joins
to sixteen characters, beyond char_limit ten, is truncated to nine
characters rather than exactly ten: its two fragments of lengths nine
and six drive the length counter, which counts one extra character per
fragment, to ten after the first fragment, stopping the traversal with
only nine characters accumulated. -/
theorem extract_exact_limit_counterexample :
    (extract_first_page_text doc_shortfall_example 1000).length = 16 ∧
    16 > 10 ∧
    (extract_first_page_text doc_shortfall_example 10).length = 9 ∧
    (9 : Nat) ≠ 10 := by
  decide

/-- C5 amended: when no paragraph carries a page break and the length
counter (which counts each fragment plus one separator) strictly
exceeds char_limit at the point traversal stops, the returned text has
exactly char_limit characters, and the header/footer text of the first
section stands at its head; when the counter stops at exactly
char_limit the text can be one character short of the limit. -/
theorem extract_exact_limit_when_counter_exceeds (doc : DocxModel)
    (limit : Nat) (hnb : no_page_break doc.body = true)
    (hover : limit < extract_stop_total doc limit) :
    (extract_first_page_text doc limit).length = limit ∧
    ∃ u, extract_first_page_text doc limit =
      doc.header_footer.take limit ++ u := by
  obtain ⟨δ, h⟩ := extract_loop_spec limit doc.body (no_page_break_spec _ hnb)
    (extract_parts0 doc, part_len (extract_parts0 doc))
  have hres : extract_first_page_text doc limit =
      (joinNL (extract_parts0 doc ++ δ)).take limit := by
    unfold extract_first_page_text
    rw [h]
  have htot : extract_stop_total doc limit =
      part_len (extract_parts0 doc ++ δ) := by
    unfold extract_stop_total
    rw [h, part_len_append]
  rw [htot] at hover
  have hPne : extract_parts0 doc ++ δ ≠ [] := by
    intro hP
    rw [hP] at hover
    simp [part_len] at hover
  have hlen := joinNL_length _ hPne
  constructor
  · rw [hres, List.length_take]
    omega
  · rw [hres]
    by_cases hhf : doc.header_footer = []
    · rw [hhf]
      exact ⟨(joinNL (extract_parts0 doc ++ δ)).take limit, by simp⟩
    · have hP0 : extract_parts0 doc ++ δ = doc.header_footer :: δ := by
        unfold extract_parts0
        rw [if_neg hhf]
        rfl
      obtain ⟨t, ht⟩ := joinNL_cons_head_eq doc.header_footer δ
      rw [hP0, ht, List.take_append_eq_append_take]
      exact ⟨_, rfl⟩

/-- Witness for C5: header hd plus one eight-character paragraph at
char_limit five: the counter stops at twelve and the result is the
five-character text starting with the header. -/
theorem extract_exact_limit_when_counter_exceeds_witness :
    no_page_break doc_overflow_example.body = true ∧
    5 < extract_stop_total doc_overflow_example 5 ∧
    ((extract_first_page_text doc_overflow_example 5).length = 5 ∧
     ∃ u, extract_first_page_text doc_overflow_example 5 =
       doc_overflow_example.header_footer.take 5 ++ u) :=
  ⟨by decide, by decide,
   extract_exact_limit_when_counter_exceeds doc_overflow_example 5
     (by decide) (by decide)⟩

theorem reason_iff_of_ne {cat rsn : List Char} (hne : rsn ≠ [])
    (hcat : cat ≠ "AUTRES".data) : (rsn = [] ↔ cat = "AUTRES".data) :=
  ⟨fun hc => absurd hc hne, fun hc => absurd hc hcat⟩

theorem detect_ndc_fp_pos (t : List Char)
    (h : (detect_ndc_in_first_page t).1 = true) :
    (detect_ndc_in_first_page t).2 ≠ [] := by
  rcases detect_ndc_fp_cases t with ⟨he, _⟩ | ⟨_, hne⟩
  · rw [he] at h
    exact absurd h (by decide)
  · exact hne

theorem detect_ndc_fn_pos (t : List Char)
    (h : (detect_ndc_in_filename t).1 = true) :
    (detect_ndc_in_filename t).2 ≠ [] := by
  rcases detect_ndc_fn_cases t with ⟨he, _⟩ | ⟨_, hne⟩
  · rw [he] at h
    exact absurd h (by decide)
  · exact hne

theorem detect_edb_fp_pos (t : List Char)
    (h : (detect_edb_in_first_page t).1 = true) :
    (detect_edb_in_first_page t).2 ≠ [] := by
  rcases detect_edb_fp_cases t with he | ⟨_, hne⟩
  · rw [he] at h
    exact absurd h (by decide)
  · exact hne

theorem detect_edb_phrase_pos (t : List Char)
    (h : (detect_edb_phrases_in_filename t).1 = true) :
    (detect_edb_phrases_in_filename t).2 ≠ [] := by
  rcases detect_edb_phrase_cases t with he | ⟨_, hne⟩
  · rw [he] at h
    exact absurd h (by decide)
  · exact hne

theorem detect_edb_abbrev_pos (t : List Char)
    (h : (detect_edb_abbrev_in_filename t).1 = true) :
    (detect_edb_abbrev_in_filename t).2 ≠ [] := by
  rcases detect_edb_abbrev_cases t with he | ⟨_, hne⟩
  · rw [he] at h
    exact absurd h (by decide)
  · exact hne

/-- C10: on every input triple, classify returns a category that is one
of NDC, EDB and AUTRES, and the reason string is empty exactly when the
category is AUTRES. -/
theorem classify_category_total_and_reason_iff (fp fn : List Char)
    (ok : Bool) :
    ((classify fp fn ok).1 = "NDC".data ∨ (classify fp fn ok).1 = "EDB".data ∨
     (classify fp fn ok).1 = "AUTRES".data) ∧
    ((classify fp fn ok).2 = [] ↔ (classify fp fn ok).1 = "AUTRES".data) := by
  have hne_ndc : ("NDC".data : List Char) ≠ "AUTRES".data := by decide
  have hne_edb : ("EDB".data : List Char) ≠ "AUTRES".data := by decide
  cases hb1 : (ok && (detect_ndc_in_first_page fp).1) with
  | true =>
    have hc : classify fp fn ok =
        ("NDC".data, (detect_ndc_in_first_page fp).2) := by
      simp [classify, hb1]
    rw [hc]
    have hd1 : (detect_ndc_in_first_page fp).1 = true := by
      simp only [Bool.and_eq_true] at hb1
      exact hb1.2
    exact ⟨Or.inl rfl, reason_iff_of_ne (detect_ndc_fp_pos fp hd1) hne_ndc⟩
  | false =>
  cases hb2 : containsSub "edb".data (lower_str fn) with
  | true =>
    have hc : classify fp fn ok =
        ("EDB".data, "filename_contains:edb".data) := by
      simp [classify, hb1, hb2]
    rw [hc]
    exact ⟨Or.inr (Or.inl rfl), reason_iff_of_ne (by decide) hne_edb⟩
  | false =>
  cases hb3 : (detect_edb_phrases_in_filename fn).1 with
  | true =>
    have hc : classify fp fn ok =
        ("EDB".data, (detect_edb_phrases_in_filename fn).2) := by
      simp [classify, hb1, hb2, hb3]
    rw [hc]
    exact ⟨Or.inr (Or.inl rfl),
      reason_iff_of_ne (detect_edb_phrase_pos fn hb3) hne_edb⟩
  | false =>
  cases hb4 : (detect_edb_abbrev_in_filename fn).1 with
  | true =>
    have hc : classify fp fn ok =
        ("EDB".data, (detect_edb_abbrev_in_filename fn).2) := by
      simp [classify, hb1, hb2, hb3, hb4]
    rw [hc]
    exact ⟨Or.inr (Or.inl rfl),
      reason_iff_of_ne (detect_edb_abbrev_pos fn hb4) hne_edb⟩
  | false =>
  cases hb5 : (containsSub "eb".data (lower_str fn) && ok &&
      !(detect_ndc_in_first_page fp).1) with
  | true =>
    have hc : classify fp fn ok =
        ("EDB".data, "filename_contains:eb AND no_ndc_on_first_page".data) := by
      simp [classify, hb1, hb2, hb3, hb4, hb5]
    rw [hc]
    exact ⟨Or.inr (Or.inl rfl), reason_iff_of_ne (by decide) hne_edb⟩
  | false =>
  cases hb6 : (containsSub "eb".data (lower_str fn) && !ok) with
  | true =>
    have hc : classify fp fn ok =
        ("EDB".data, "filename_contains:eb AND content_unreadable".data) := by
      simp [classify, hb1, hb2, hb3, hb4, hb5, hb6]
    rw [hc]
    exact ⟨Or.inr (Or.inl rfl), reason_iff_of_ne (by decide) hne_edb⟩
  | false =>
  cases hb7 : (detect_ndc_in_filename fn).1 with
  | true =>
    have hc : classify fp fn ok =
        ("NDC".data, (detect_ndc_in_filename fn).2) := by
      simp [classify, hb1, hb2, hb3, hb4, hb5, hb6, hb7]
    rw [hc]
    exact ⟨Or.inl rfl, reason_iff_of_ne (detect_ndc_fn_pos fn hb7) hne_ndc⟩
  | false =>
  cases hb8 : (ok && (detect_edb_in_first_page fp).1) with
  | true =>
    have hc : classify fp fn ok =
        ("EDB".data, (detect_edb_in_first_page fp).2) := by
      simp [classify, hb1, hb2, hb3, hb4, hb5, hb6, hb7, hb8]
    rw [hc]
    have hd8 : (detect_edb_in_first_page fp).1 = true := by
      simp only [Bool.and_eq_true] at hb8
      exact hb8.2
    exact ⟨Or.inr (Or.inl rfl),
      reason_iff_of_ne (detect_edb_fp_pos fp hd8) hne_edb⟩
  | false =>
    have hc : classify fp fn ok = ("AUTRES".data, []) := by
      simp [classify, hb1, hb2, hb3, hb4, hb5, hb6, hb7, hb8]
    rw [hc]
    exact ⟨Or.inr (Or.inr rfl), ⟨fun _ => rfl, fun _ => rfl⟩⟩

end ClassifyDocx
